import Mathlib

/-!
# LC3 virtual machine: a shallow embedding

This file embeds the LC3 virtual machine of the repository in Lean 4 and
proves properties of it.

The embedding merges the CRTP pair from the sources: the engine fields of
`lc3::VmCore` (`reg_`, `pc_`, `cond_`, `state_` in `LC3.h`) and the external
fields of `Lc3C` (`mem_`, `key_` in `Lc3C.h`), since the template composes
them into a single object.  Console output performed by the trap handler with
`putc`, `printf` and `puts` is modelled as a list of emitted bytes appended to
the field `out`.  Machine words are `Nat` with an explicit `% 65536` at every
point where the C code truncates to `uint16_t`.
-/

set_option maxRecDepth 10000

namespace LC3

/-- Embeds `lc3::State` - the tagged union `std::variant<Stopped, Running, Trapped>`.
`Trapped` carries the `int trap` payload the engine stores into it. -/
inductive State where
  | Stopped : State
  | Running : State
  | Trapped : Nat → State
deriving DecidableEq, Repr

/-- The merged machine: engine registers and state from `VmCore` in `LC3.h`
plus the memory, pending-key slot and console output of `Lc3C`. -/
structure Machine where
  state : State
  reg : Nat → Nat    -- reg_[8]: general registers, indexed 0..7
  pc : Nat           -- pc_: program counter, < 65536
  cond : Nat         -- cond_: condition flags
  mem : Nat → Nat    -- mem_[65536]: word memory, indexed 0..65535
  key : Nat          -- key_: pending key, 0 means none
  out : List Nat     -- bytes emitted to the console by the trap handler

/-- Pointwise array update, modelling `a[i] = v` on a C array. -/
def upd (f : Nat → Nat) (i v : Nat) : Nat → Nat :=
  fun j => if j = i then v else f j

-- Condition flag values (`enum class Flags` in LC3.h).
def FL_POS : Nat := 1
def FL_ZERO : Nat := 2
def FL_NEG : Nat := 4

-- Memory-mapped I/O port addresses (Lc3C.cpp).
def MR_KBSR : Nat := 0xFE00  -- keyboard status register
def MR_KBDR : Nat := 0xFE02  -- keyboard data register

/-- Embeds `Lc3C::HasKey` - a key is pending when the slot is nonzero. -/
def HasKey (m : Machine) : Bool := m.key != 0

/-- Embeds `Lc3C::GetKey` - read and consume the pending key. -/
def GetKey (m : Machine) : Nat × Machine :=
  (m.key, { m with key := 0 })

/-- Embeds `Lc3C::SetKey` - the host delivers a key to the pending slot. -/
def SetKey (m : Machine) (k : Nat) : Machine :=
  { m with key := k }

/-- Embeds `Lc3C::ReadMem` - a word read; a read of the keyboard status address is
intercepted to publish key availability and the pending key first.  Returns
the word read together with the machine after the side effect. -/
def ReadMem (m : Machine) (address : Nat) : Nat × Machine :=
  if address = MR_KBSR then
    if HasKey m then
      let g := GetKey m
      let mem1 := upd (upd m.mem MR_KBSR 0x8000) MR_KBDR g.1
      (mem1 address, { g.2 with mem := mem1 })
    else
      let mem1 := upd m.mem MR_KBSR 0
      (mem1 address, { m with mem := mem1 })
  else
    (m.mem address, m)

/-- Embeds `Lc3C::WriteMem` - a plain word store (the argument is a `uint16_t`,
hence the truncation at the call boundary). -/
def WriteMem (m : Machine) (address val : Nat) : Machine :=
  { m with mem := upd m.mem (address % 65536) (val % 65536) }

/-- Embeds `VmCore::SignExtend` - widen the low `bitCount` bits of `x` to a 16-bit
word, filling with the sign bit (`x |= 0xffff << bitCount`, truncated). -/
def SignExtend (x : Nat) (bitCount : Nat) : Nat :=
  if (x >>> (bitCount - 1)) &&& 1 ≠ 0 then
    (x ||| (0xffff <<< bitCount)) % 65536
  else
    x

/-- Embeds `VmCore::UpdateFlags` - set the condition flags from register `r`. -/
def UpdateFlags (m : Machine) (r : Nat) : Machine :=
  if m.reg r = 0 then
    { m with cond := FL_ZERO }
  else if m.reg r >>> 15 ≠ 0 then
    { m with cond := FL_NEG }
  else
    { m with cond := FL_POS }

-- Instruction decoding (VmCore statics in LC3.h).

def IsImmediate (instr : Nat) : Bool := (instr >>> 5) &&& 0x1 != 0
def IsLong (instr : Nat) : Bool := (instr >>> 11) &&& 1 != 0
def Cnd (instr : Nat) : Nat := (instr >>> 9) &&& 0x7  -- `Cond` in the source
def Dr (instr : Nat) : Nat := (instr >>> 9) &&& 0x7
def Sr1 (instr : Nat) : Nat := (instr >>> 6) &&& 0x7
def Sr2 (instr : Nat) : Nat := instr &&& 0x7
def Sr (instr : Nat) : Nat := (instr >>> 9) &&& 0x7
def BaseR (instr : Nat) : Nat := (instr >>> 6) &&& 0x7
def Imm5 (instr : Nat) : Nat := SignExtend (instr &&& 0x1F) 5
def Offset6 (instr : Nat) : Nat := SignExtend (instr &&& 0x3F) 6
def PcOffset9 (instr : Nat) : Nat := SignExtend (instr &&& 0x1FF) 9
def PcOffset11 (instr : Nat) : Nat := SignExtend (instr &&& 0x7FF) 11

-- Opcode implementations (VmCore in LC3.h).  Each acts on the machine whose
-- PC has already been advanced past the fetched instruction.

/-- Embeds `VmCore::OpAdd`. -/
def OpAdd (m : Machine) (instr : Nat) : Machine :=
  let dr := Dr instr
  let sr1 := Sr1 instr
  let m1 :=
    if IsImmediate instr then
      { m with reg := upd m.reg dr ((m.reg sr1 + Imm5 instr) % 65536) }
    else
      { m with reg := upd m.reg dr ((m.reg sr1 + m.reg (Sr2 instr)) % 65536) }
  UpdateFlags m1 dr

/-- Embeds `VmCore::OpAnd`. -/
def OpAnd (m : Machine) (instr : Nat) : Machine :=
  let dr := Dr instr
  let sr1 := Sr1 instr
  let m1 :=
    if IsImmediate instr then
      { m with reg := upd m.reg dr ((m.reg sr1 &&& Imm5 instr) % 65536) }
    else
      { m with reg := upd m.reg dr ((m.reg sr1 &&& m.reg (Sr2 instr)) % 65536) }
  UpdateFlags m1 dr

/-- Embeds `VmCore::OpBr`. -/
def OpBr (m : Machine) (instr : Nat) : Machine :=
  if Cnd instr = 0 ∨ Cnd instr &&& m.cond ≠ 0 then
    { m with pc := (m.pc + PcOffset9 instr) % 65536 }
  else
    m

/-- Embeds `VmCore::OpJmp`. -/
def OpJmp (m : Machine) (instr : Nat) : Machine :=
  { m with pc := m.reg (BaseR instr) % 65536 }

/-- Embeds `VmCore::OpJsr`. -/
def OpJsr (m : Machine) (instr : Nat) : Machine :=
  let m1 := { m with reg := upd m.reg 7 (m.pc % 65536) }
  if IsLong instr then
    { m1 with pc := (m1.pc + PcOffset11 instr) % 65536 }
  else
    { m1 with pc := m1.reg (BaseR instr) % 65536 }

/-- Embeds `VmCore::OpLd`. -/
def OpLd (m : Machine) (instr : Nat) : Machine :=
  let dr := Dr instr
  let r := ReadMem m ((m.pc + PcOffset9 instr) % 65536)
  UpdateFlags { r.2 with reg := upd r.2.reg dr r.1 } dr

/-- Embeds `VmCore::OpLdi`. -/
def OpLdi (m : Machine) (instr : Nat) : Machine :=
  let dr := Dr instr
  let r1 := ReadMem m ((m.pc + PcOffset9 instr) % 65536)
  let r2 := ReadMem r1.2 (r1.1 % 65536)
  UpdateFlags { r2.2 with reg := upd r2.2.reg dr r2.1 } dr

/-- Embeds `VmCore::OpLdr`. -/
def OpLdr (m : Machine) (instr : Nat) : Machine :=
  let dr := Dr instr
  let r := ReadMem m ((m.reg (BaseR instr) + Offset6 instr) % 65536)
  UpdateFlags { r.2 with reg := upd r.2.reg dr r.1 } dr

/-- Embeds `VmCore::OpLea`. -/
def OpLea (m : Machine) (instr : Nat) : Machine :=
  let dr := Dr instr
  UpdateFlags { m with reg := upd m.reg dr ((m.pc + PcOffset9 instr) % 65536) } dr

/-- Bitwise complement of a 16-bit word (`~x` truncated to `uint16_t`). -/
def bnot16 (x : Nat) : Nat := 65535 - x % 65536

/-- Embeds `VmCore::OpNot`. -/
def OpNot (m : Machine) (instr : Nat) : Machine :=
  let dr := Dr instr
  UpdateFlags { m with reg := upd m.reg dr (bnot16 (m.reg (Sr1 instr))) } dr

/-- Embeds `VmCore::OpSt`. -/
def OpSt (m : Machine) (instr : Nat) : Machine :=
  WriteMem m ((m.pc + PcOffset9 instr) % 65536) (m.reg (Sr instr))

/-- Embeds `VmCore::OpSti`. -/
def OpSti (m : Machine) (instr : Nat) : Machine :=
  let r := ReadMem m ((m.pc + PcOffset9 instr) % 65536)
  WriteMem r.2 r.1 (r.2.reg (Sr instr))

/-- Embeds `VmCore::OpStr`. -/
def OpStr (m : Machine) (instr : Nat) : Machine :=
  WriteMem m ((m.reg (BaseR instr) + Offset6 instr) % 65536) (m.reg (Sr instr))

/-- The dispatch `switch (op)` in `VmCore::Run`, in the case order of the
source.  `OP_RES`, `OP_RTI` and the default case transition to `Stopped`;
`OP_TRAP` records the whole instruction word in the `Trapped` state. -/
def execute (m : Machine) (instr : Nat) : Machine :=
  let op := instr >>> 12
  if op = 1 then OpAdd m instr          -- OP_ADD
  else if op = 5 then OpAnd m instr     -- OP_AND
  else if op = 9 then OpNot m instr     -- OP_NOT
  else if op = 0 then OpBr m instr      -- OP_BR
  else if op = 12 then OpJmp m instr    -- OP_JMP
  else if op = 4 then OpJsr m instr     -- OP_JSR
  else if op = 2 then OpLd m instr      -- OP_LD
  else if op = 10 then OpLdi m instr    -- OP_LDI
  else if op = 6 then OpLdr m instr     -- OP_LDR
  else if op = 14 then OpLea m instr    -- OP_LEA
  else if op = 3 then OpSt m instr      -- OP_ST
  else if op = 11 then OpSti m instr    -- OP_STI
  else if op = 7 then OpStr m instr     -- OP_STR
  else if op = 15 then { m with state := State.Trapped instr }  -- OP_TRAP
  else { m with state := State.Stopped }  -- OP_RES, OP_RTI, default

/-- One iteration of the fetch-execute loop of `VmCore::Run`:
`instr = ReadMem(pc_++)` followed by the dispatch. -/
def step (m : Machine) : Machine :=
  let f := ReadMem m m.pc
  execute { f.2 with pc := (f.2.pc + 1) % 65536 } f.1

/-- Embeds `VmCore::Run(ticks)` for a nonnegative tick budget: loop while the state
is `Running` and the budget is not exhausted.  (A negative C budget loops
with no bound; no claim needs it and the blocking wrapper always passes
1000.) -/
def Run (ticks : Nat) (m : Machine) : Machine :=
  match ticks with
  | 0 => m
  | t + 1 => if m.state = State.Running then Run t (step m) else m

/-- Embeds `VmCore::Reset` - PC to the fixed origin, registers and flags zeroed,
state `Running`. -/
def Reset (m : Machine) : Machine :=
  { m with pc := 0x3000, cond := 0, reg := fun _ => 0,
           state := State.Running }

-- The trap handler (Lc3C::Trap in Lc3C.cpp).

/-- The bytes the walk of `while (*c) putc((char)*c, ...)` in the PUTS trap
emits: one low byte per word starting at `a`, until a zero word.  The fuel
bounds the walk at the end of the 65536-word array, past which the C pointer
walk would leave `mem_`. -/
def putsOut (mem : Nat → Nat) (a : Nat) : Nat → List Nat
  | 0 => []
  | fuel + 1 =>
    if mem a = 0 then [] else (mem a % 256) :: putsOut mem (a + 1) fuel

/-- The bytes the PUTSP trap emits per word: the low byte, then the high
byte when it is nonzero, until a zero word; fuel as in `putsOut`. -/
def putspOut (mem : Nat → Nat) (a : Nat) : Nat → List Nat
  | 0 => []
  | fuel + 1 =>
    if mem a = 0 then []
    else if mem a >>> 8 = 0 then (mem a % 256) :: putspOut mem (a + 1) fuel
    else (mem a % 256) :: (mem a >>> 8) :: putspOut mem (a + 1) fuel

/-- The bytes of the `"Enter a character: "` prompt the IN trap prints. -/
def promptOut : List Nat :=
  [69, 110, 116, 101, 114, 32, 97, 32, 99, 104, 97, 114, 97, 99, 116, 101,
   114, 58, 32]

/-- The bytes of the `"HALT"` notice (with the newline `puts` appends). -/
def haltOut : List Nat := [72, 65, 76, 84, 10]

/-- The value `reg_[0] = static_cast<uint16_t>(c)` stores in the IN trap
after the key went through `char c`: the low byte, sign-extended to 16 bits
because `char` is signed on the reference target (MSVC). -/
def charCast16 (x : Nat) : Nat :=
  if x % 256 < 128 then x % 256 else 0xFF00 + x % 256

/-- Embeds `Lc3C::Trap` - fulfil the trap requested by `instr`.  The handler first
defaults the state back to `Running`, then dispatches on the low byte of the
instruction; only HALT moves to `Stopped`.  An unlisted vector falls through
the `switch` with no effect. -/
def Trap (m : Machine) (instr : Nat) : Machine :=
  let m0 := { m with state := State.Running }
  let v := instr &&& 0xff
  if v = 0x20 then  -- TRAP_GETC: read a single character.
    let g := GetKey m0
    { g.2 with reg := upd g.2.reg 0 g.1 }
  else if v = 0x21 then  -- TRAP_OUT: write a single character.
    { m0 with out := m0.out ++ [m0.reg 0 % 256] }
  else if v = 0x22 then  -- TRAP_PUTS: write a character string.
    { m0 with out := m0.out ++ putsOut m0.mem (m0.reg 0) (65536 - m0.reg 0) }
  else if v = 0x23 then  -- TRAP_IN: prompt, read a character, echo it.
    let g := GetKey m0
    { g.2 with out := g.2.out ++ promptOut ++ [g.1 % 256],
               reg := upd g.2.reg 0 (charCast16 g.1) }
  else if v = 0x24 then  -- TRAP_PUTSP: write a byte-packed string.
    { m0 with out := m0.out ++ putspOut m0.mem (m0.reg 0) (65536 - m0.reg 0) }
  else if v = 0x25 then  -- TRAP_HALT: print the notice and stop.
    { m0 with out := m0.out ++ haltOut, state := State.Stopped }
  else
    m0

-- The blocking wrapper (class VmState in VmState.h / VmState.cpp).

-- Blocking flag bits (`enum` in VmState.h).
def isBlockedOnInput : Nat := 0x01
def isBlockedOnOutput : Nat := 0x02

/-- Embeds `class VmState` - one engine plus its blocking flags. -/
structure VmState where
  lc3 : Machine
  blocked : Nat  -- uint32_t bitfield of the two blocking flags

/-- Embeds `VmState::SetKey`. -/
def VmState.DeliverKey (w : VmState) (k : Nat) : VmState :=
  { w with lc3 := SetKey w.lc3 k }

/-- Embeds `VmState::SetBlocked` - OR the given flags in. -/
def VmState.SetBlocked (w : VmState) (flags : Nat) : VmState :=
  { w with blocked := w.blocked ||| flags }

/-- Embeds `VmState::ClearBlocked` - `blocked_ &= ~flags` on a `uint32_t`. -/
def VmState.ClearBlocked (w : VmState) (flags : Nat) : VmState :=
  { w with blocked := w.blocked &&& (0xFFFFFFFF ^^^ flags % 0x100000000) }

/-- Embeds `VmState::Run` - one scheduling turn: if not stopped, execute a pending
unblocked trap, then run the engine for 1000 ticks and classify a resulting
trap into a blocking flag; report `!IsStopped(state)`.  A turn entered in
the `Stopped` state does nothing and returns `true`. -/
def VmState.Turn (w : VmState) : VmState × Bool :=
  if w.lc3.state = State.Stopped then
    (w, true)
  else
    -- If the VM is trapped and it is not blocked then execute the trap.
    let m1 :=
      match w.lc3.state with
      | State.Trapped t => if w.blocked = 0 then Trap w.lc3 t else w.lc3
      | _ => w.lc3
    -- If the VM can run then run it, then block on a resulting trap.
    if m1.state = State.Running then
      let m2 := Run 1000 m1
      let b2 :=
        match m2.state with
        | State.Trapped t =>
          let v := t &&& 0xff
          if v = 0x20 ∨ v = 0x23 then w.blocked ||| isBlockedOnInput
          else if v = 0x21 ∨ v = 0x22 ∨ v = 0x24 then
            w.blocked ||| isBlockedOnOutput
          else w.blocked
        | _ => w.blocked
      (⟨m2, b2⟩, if m2.state = State.Stopped then false else true)
    else
      (⟨m1, w.blocked⟩, if m1.state = State.Stopped then false else true)

-- The image loader (VmState::ReadImage and Lc3C::ReadImage, which perform
-- the identical arithmetic - one through the Load callback, one directly).

/-- Embeds `Swap16` - byte-swap a 16-bit word. -/
def Swap16 (x : Nat) : Nat := ((x <<< 8) ||| (x >>> 8)) % 65536

/-- Store a list of raw stream words at consecutive addresses, byte-swapping
each to native order as the loader loop does. -/
def storeWords (mem : Nat → Nat) (a : Nat) : List Nat → (Nat → Nat)
  | [] => mem
  | wrd :: ws => storeWords (upd mem a (Swap16 wrd)) (a + 1) ws

/-- Embeds `ReadImage` - the first raw 16-bit word of the stream (as `fread`
delivers it on the little-endian host) is the big-endian load origin; at
most `UINT16_MAX - origin` following raw words are stored from `origin`
upward, each byte-swapped to native order.  `rawWords` are the data words
as read, so `Swap16` of each is its big-endian value. -/
def ReadImage (m : Machine) (rawOrigin : Nat) (rawWords : List Nat) : Machine :=
  let origin := Swap16 rawOrigin
  let maxRead := 65535 - origin
  { m with mem := storeWords m.mem origin (rawWords.take maxRead) }

-- Specification-side definitions, written from the wording of the spec to
-- compare against the engine: the signed reading of a 16-bit word and the
-- flag setting it prescribes.

/-- The signed (two-complement) interpretation of a 16-bit word. -/
def toSigned (x : Nat) : Int :=
  if x < 32768 then (x : Int) else (x : Int) - 65536

/-- The condition flags the spec prescribes for a 16-bit result: POSITIVE,
ZERO or NEGATIVE according to its signed interpretation. -/
def flagsOfSigned (x : Nat) : Nat :=
  if toSigned x = 0 then FL_ZERO
  else if toSigned x < 0 then FL_NEG
  else FL_POS

-- Basic lemmas about the embedding.

theorem upd_same (f : Nat → Nat) (i v : Nat) : upd f i v i = v := by
  simp [upd]

theorem upd_other (f : Nat → Nat) (i v j : Nat) (h : j ≠ i) :
    upd f i v j = f j := by
  simp [upd, h]

theorem ReadMem_not_kbsr (m : Machine) (a : Nat) (h : a ≠ MR_KBSR) :
    ReadMem m a = (m.mem a, m) := by
  simp [ReadMem, h]

theorem Run_of_not_running (t : Nat) (m : Machine)
    (h : m.state ≠ State.Running) : Run t m = m := by
  cases t <;> simp [Run, h]

theorem UpdateFlags_reg (m : Machine) (r : Nat) :
    (UpdateFlags m r).reg = m.reg := by
  unfold UpdateFlags; split_ifs <;> rfl

theorem UpdateFlags_cond (m : Machine) (r : Nat) :
    (UpdateFlags m r).cond =
      if m.reg r = 0 then FL_ZERO
      else if m.reg r >>> 15 ≠ 0 then FL_NEG
      else FL_POS := by
  unfold UpdateFlags; split_ifs <;> rfl

/-- For a genuine 16-bit value, the flag update of the engine computes
exactly the flags the signed reading prescribes. -/
theorem flags_engine_eq_spec (x : Nat) (h : x < 65536) :
    (if x = 0 then FL_ZERO else if x >>> 15 ≠ 0 then FL_NEG else FL_POS)
      = flagsOfSigned x := by
  have hs : x >>> 15 = x / 2 ^ 15 := Nat.shiftRight_eq_div_pow x 15
  unfold flagsOfSigned toSigned FL_ZERO FL_NEG FL_POS
  split_ifs <;> omega

/-- A fetch away from the keyboard status register has no side effect, and
an instruction whose top nibble is the trap opcode makes the engine record
the whole fetched word and stop iterating. -/
theorem step_trap (m : Machine) (hpc : m.pc ≠ MR_KBSR)
    (hop : m.mem m.pc >>> 12 = 15) :
    step m = { m with pc := (m.pc + 1) % 65536,
                      state := State.Trapped (m.mem m.pc) } := by
  unfold step
  rw [ReadMem_not_kbsr m m.pc hpc]
  simp only [execute, hop]
  norm_num

theorem Run_trap (t : Nat) (m : Machine) (hrun : m.state = State.Running)
    (ht : 1 ≤ t) (hpc : m.pc ≠ MR_KBSR) (hop : m.mem m.pc >>> 12 = 15) :
    Run t m = { m with pc := (m.pc + 1) % 65536,
                       state := State.Trapped (m.mem m.pc) } := by
  obtain ⟨s, rfl⟩ : ∃ s, t = s + 1 := ⟨t - 1, by omega⟩
  rw [Run, if_pos hrun, step_trap m hpc hop]
  exact Run_of_not_running s _ (by simp)

/-- A read of the keyboard status address always returns the freshly
published status word: 0x8000 or 0. -/
theorem readMem_kbsr_val (m : Machine) :
    (ReadMem m MR_KBSR).1 = 0x8000 ∨ (ReadMem m MR_KBSR).1 = 0 := by
  unfold ReadMem
  rw [if_pos rfl]
  by_cases hk : HasKey m = true
  · left; rw [if_pos hk]; rfl
  · right; rw [if_neg hk]; rfl

/-- The value of a fetch never has 15 as its top nibble when it hits the
intercepted keyboard status address: the interception publishes 0x8000 or
0 there first. -/
theorem fetch_trap_ne_kbsr (m : Machine)
    (hop : (ReadMem m m.pc).1 >>> 12 = 15) : m.pc ≠ MR_KBSR := by
  intro he
  rw [he] at hop
  rcases readMem_kbsr_val m with h | h <;> rw [h] at hop <;>
    exact absurd hop (by decide)

-- Claim C1.

/-- Claim C1 (amended): when the engine fetches a word whose top 4 bits
decode to the TRAP opcode, the resulting state is `Trapped` carrying the
whole 16-bit fetched instruction word (of which the low 8 bits are the trap
vector; the hosts mask with 0xff), and the engine makes no change beyond
the already-performed PC increment. -/
theorem trap_fetch_traps_full_word (t : Nat) (m : Machine)
    (hrun : m.state = State.Running) (ht : 1 ≤ t)
    (hop : (ReadMem m m.pc).1 >>> 12 = 15) :
    Run t m = { m with pc := (m.pc + 1) % 65536,
                       state := State.Trapped ((ReadMem m m.pc).1) } := by
  have hpc := fetch_trap_ne_kbsr m hop
  rw [ReadMem_not_kbsr m m.pc hpc] at hop ⊢
  exact Run_trap t m hrun ht hpc hop

/-- A machine about to execute the word 0xF025 (TRAP with vector 0x25). -/
def exTrapM : Machine :=
  { state := State.Running, reg := fun _ => 0, pc := 0x3000, cond := 0,
    mem := fun a => if a = 0x3000 then 0xF025 else 0, key := 0, out := [] }

/-- Claim C1, counterexample to the claim as stated: fetching the word
0xF025 yields `Trapped 0xF025`, not `Trapped 0x25` with just the low 8
bits. -/
theorem trapped_payload_not_low_byte :
    ¬ (Run 1 exTrapM).state = State.Trapped 0x25 := by
  decide

/-- Claim C1, witness for the amended theorem. -/
theorem trap_fetch_traps_full_word_witness :
    Run 1 exTrapM = { exTrapM with
                        pc := (exTrapM.pc + 1) % 65536,
                        state := State.Trapped ((ReadMem exTrapM exTrapM.pc).1) } :=
  trap_fetch_traps_full_word 1 exTrapM rfl (by decide) (by decide)

-- Claim C2.

/-- Claim C2: for every ADD or AND instruction with the immediate bit set,
the destination register afterwards holds source1 combined with the sign
extension of the 5-bit immediate, modulo 2^16, and the condition flags are
POSITIVE, ZERO or NEGATIVE exactly as the signed interpretation of the
16-bit result prescribes. -/
theorem add_and_immediate (m : Machine) (instr : Nat)
    (himm : IsImmediate instr = true) :
    (OpAdd m instr).reg (Dr instr)
        = (m.reg (Sr1 instr) + Imm5 instr) % 65536 ∧
    (OpAdd m instr).cond
        = flagsOfSigned ((m.reg (Sr1 instr) + Imm5 instr) % 65536) ∧
    (OpAnd m instr).reg (Dr instr)
        = (m.reg (Sr1 instr) &&& Imm5 instr) % 65536 ∧
    (OpAnd m instr).cond
        = flagsOfSigned ((m.reg (Sr1 instr) &&& Imm5 instr) % 65536) := by
  have hlt : ∀ v : Nat, v % 65536 < 65536 := fun v => Nat.mod_lt v (by omega)
  refine ⟨?_, ?_, ?_, ?_⟩ <;>
    simp only [OpAdd, OpAnd, himm, if_pos, UpdateFlags_cond, UpdateFlags_reg,
      upd_same] <;>
    exact flags_engine_eq_spec _ (hlt _)

/-- A zeroed machine for the C2 witness. -/
def exAluM : Machine :=
  { state := State.Running, reg := fun _ => 0, pc := 0x3000, cond := 0,
    mem := fun _ => 0, key := 0, out := [] }

/-- Claim C2, witness: `ADD R0, R0, #-1` (0x103F) on a zeroed machine. -/
theorem add_and_immediate_witness :
    (OpAdd exAluM 0x103F).reg (Dr 0x103F)
        = (exAluM.reg (Sr1 0x103F) + Imm5 0x103F) % 65536 ∧
    (OpAdd exAluM 0x103F).cond
        = flagsOfSigned ((exAluM.reg (Sr1 0x103F) + Imm5 0x103F) % 65536) ∧
    (OpAnd exAluM 0x103F).reg (Dr 0x103F)
        = (exAluM.reg (Sr1 0x103F) &&& Imm5 0x103F) % 65536 ∧
    (OpAnd exAluM 0x103F).cond
        = flagsOfSigned ((exAluM.reg (Sr1 0x103F) &&& Imm5 0x103F) % 65536) :=
  add_and_immediate exAluM 0x103F (by decide)

-- Claim C3.

/-- Claim C3: a BR instruction with condition mask zero always branches;
with a non-zero mask it branches exactly when the mask shares a set bit
with the current flags; a taken branch sets PC to the already-incremented
PC plus the sign-extended 9-bit offset modulo 2^16, and a branch not taken
leaves the PC at the fetch increment. -/
theorem step_br_pc (m : Machine)
    (hop : (ReadMem m m.pc).1 >>> 12 = 0) :
    (step m).pc =
      if Cnd ((ReadMem m m.pc).1) = 0 ∨
          Cnd ((ReadMem m m.pc).1) &&& m.cond ≠ 0
      then ((m.pc + 1) % 65536 + PcOffset9 ((ReadMem m m.pc).1)) % 65536
      else (m.pc + 1) % 65536 := by
  have hc : (ReadMem m m.pc).2.cond = m.cond := by
    unfold ReadMem; split_ifs <;> rfl
  have hp : (ReadMem m m.pc).2.pc = m.pc := by
    unfold ReadMem; split_ifs <;> rfl
  unfold step
  simp only [execute, hop]
  norm_num
  unfold OpBr
  split_ifs <;> simp_all

theorem br_branch_semantics (m : Machine)
    (hop : (ReadMem m m.pc).1 >>> 12 = 0) :
    (Cnd ((ReadMem m m.pc).1) = 0 →
      (step m).pc
        = ((m.pc + 1) % 65536 + PcOffset9 ((ReadMem m m.pc).1)) % 65536) ∧
    (Cnd ((ReadMem m m.pc).1) ≠ 0 ∧
        Cnd ((ReadMem m m.pc).1) &&& m.cond ≠ 0 →
      (step m).pc
        = ((m.pc + 1) % 65536 + PcOffset9 ((ReadMem m m.pc).1)) % 65536) ∧
    (Cnd ((ReadMem m m.pc).1) ≠ 0 ∧
        Cnd ((ReadMem m m.pc).1) &&& m.cond = 0 →
      (step m).pc = (m.pc + 1) % 65536) := by
  rw [step_br_pc m hop]
  refine ⟨fun h => ?_, fun h => ?_, fun h => ?_⟩
  · rw [if_pos (Or.inl h)]
  · rw [if_pos (Or.inr h.2)]
  · rw [if_neg]
    rintro (hc | hc)
    · exact h.1 hc
    · exact hc h.2

/-- A machine about to execute `BRz +2` (0x0402) with the ZERO flag clear. -/
def exBrM : Machine :=
  { state := State.Running, reg := fun _ => 0, pc := 0x3000, cond := 1,
    mem := fun a => if a = 0x3000 then 0x0402 else 0, key := 0, out := [] }

/-- Claim C3, witness: `BRz` with POSITIVE flags does not branch. -/
theorem br_branch_semantics_witness :
    Cnd ((ReadMem exBrM exBrM.pc).1) ≠ 0 ∧
    Cnd ((ReadMem exBrM exBrM.pc).1) &&& exBrM.cond = 0 ∧
    (step exBrM).pc = (exBrM.pc + 1) % 65536 :=
  ⟨by decide, by decide,
    (br_branch_semantics exBrM (by decide)).2.2 ⟨by decide, by decide⟩⟩

-- Claim C4.

/-- Claim C4: reading the keyboard status address 0xFE00 through the word
read operation, with a pending key, publishes 0x8000 at 0xFE00 and the key
at the data address 0xFE02, consumes the key, and returns 0x8000; with no
key pending it publishes 0 at 0xFE00 and returns 0.  The returned status is
the freshly published one, so the data address is populated before the
status word is returned. -/
theorem kbsr_read_intercept (m : Machine) :
    (m.key ≠ 0 →
      (ReadMem m MR_KBSR).1 = 0x8000 ∧
      (ReadMem m MR_KBSR).2.mem MR_KBSR = 0x8000 ∧
      (ReadMem m MR_KBSR).2.mem MR_KBDR = m.key ∧
      (ReadMem m MR_KBSR).2.key = 0) ∧
    (m.key = 0 →
      (ReadMem m MR_KBSR).1 = 0 ∧
      (ReadMem m MR_KBSR).2.mem MR_KBSR = 0 ∧
      (ReadMem m MR_KBSR).2.key = 0) := by
  constructor <;> intro h <;>
    simp [ReadMem, HasKey, GetKey, upd, MR_KBSR, MR_KBDR, h]

/-- A machine with the key 65 pending, for the C4 witness. -/
def exKeyM : Machine :=
  { state := State.Running, reg := fun _ => 0, pc := 0x3000, cond := 0,
    mem := fun _ => 0, key := 65, out := [] }

/-- Claim C4, witness: the pending key 65 is published and consumed. -/
theorem kbsr_read_intercept_witness :
    (ReadMem exKeyM MR_KBSR).1 = 0x8000 ∧
    (ReadMem exKeyM MR_KBSR).2.mem MR_KBSR = 0x8000 ∧
    (ReadMem exKeyM MR_KBSR).2.mem MR_KBDR = exKeyM.key ∧
    (ReadMem exKeyM MR_KBSR).2.key = 0 :=
  (kbsr_read_intercept exKeyM).1 (by decide)

-- Claim C5.

/-- Claim C5: fulfilling any of the trap vectors 0x20 to 0x24 leaves the
machine in the Running state; fulfilling 0x25 (HALT) leaves it Stopped. -/
theorem trap_result_state (m : Machine) (instr : Nat) :
    ((instr &&& 0xff = 0x20 ∨ instr &&& 0xff = 0x21 ∨ instr &&& 0xff = 0x22 ∨
      instr &&& 0xff = 0x23 ∨ instr &&& 0xff = 0x24) →
        (Trap m instr).state = State.Running) ∧
    (instr &&& 0xff = 0x25 → (Trap m instr).state = State.Stopped) := by
  constructor
  · rintro (h | h | h | h | h) <;> simp [Trap, GetKey, h]
  · intro h; simp [Trap, h]

/-- Claim C5, witness: GETC returns Running, HALT returns Stopped, on a
zeroed machine. -/
theorem trap_result_state_witness :
    (Trap exAluM 0xF020).state = State.Running ∧
    (Trap exAluM 0xF025).state = State.Stopped :=
  ⟨(trap_result_state exAluM 0xF020).1 (by decide),
   (trap_result_state exAluM 0xF025).2 (by decide)⟩

-- Claim C7.

/-- Claim C7 (amended): the Stopped state is terminal for the engine: a run
of any budget applied to a Stopped machine returns it unchanged, and an
explicit Reset moves it back to Running.  (The trap handler, invoked
directly, is an exception the blocking wrapper guards against: it resets
the state to Running before dispatching, whatever the previous state.) -/
theorem stopped_engine_inert (t : Nat) (m : Machine)
    (h : m.state = State.Stopped) :
    Run t m = m ∧ (Reset m).state = State.Running := by
  refine ⟨Run_of_not_running t m ?_, rfl⟩
  rw [h]
  exact fun hc => State.noConfusion hc

/-- A Stopped machine for the C7 and C8 examples. -/
def exStoppedM : Machine :=
  { state := State.Stopped, reg := fun _ => 0, pc := 0x3000, cond := 0,
    mem := fun _ => 0, key := 0, out := [] }

/-- Claim C7, counterexample to the claim as stated: the trap handler is a
core operation, yet invoked on a Stopped machine with vector 0x20 it
transitions the machine to Running. -/
theorem stopped_left_by_trap_handler :
    exStoppedM.state = State.Stopped ∧
    (Trap exStoppedM 0x20).state = State.Running :=
  ⟨rfl, rfl⟩

/-- Claim C7, witness for the amended theorem. -/
theorem stopped_engine_inert_witness :
    Run 1000 exStoppedM = exStoppedM ∧
    (Reset exStoppedM).state = State.Running :=
  stopped_engine_inert 1000 exStoppedM rfl

-- Claim C8.

/-- Claim C8 (amended): a scheduling turn of the blocking wrapper entered
with the machine already Stopped performs no engine or trap-handler work -
the wrapper is returned unchanged - and reports `true`, the still-alive
outcome, so an instance that stopped on an earlier turn is not reported as
newly dead again. -/
theorem turn_on_stopped_is_noop (w : VmState)
    (h : w.lc3.state = State.Stopped) :
    VmState.Turn w = (w, true) := by
  simp [VmState.Turn, h]

/-- A wrapper whose machine is already Stopped. -/
def exStoppedW : VmState := ⟨exStoppedM, 0⟩

/-- Claim C8, counterexample to the claim as stated: the turn on an
already-Stopped instance reports `true`, not the not-alive outcome
`false`. -/
theorem turn_on_stopped_reports_alive :
    ¬ (VmState.Turn exStoppedW).2 = false := by
  decide

/-- Claim C8, witness for the amended theorem. -/
theorem turn_on_stopped_is_noop_witness :
    VmState.Turn exStoppedW = (exStoppedW, true) :=
  turn_on_stopped_is_noop exStoppedW rfl

-- Claim C10.

/-- Claim C10 (amended): every defined trap vector 0x20 to 0x25 leaves the
program counter and the condition flags unchanged.  GETC writes the
consumed key into register 0 and IN writes the consumed key narrowed
through an 8-bit character (sign-extended back to 16 bits), both leaving
every other register and the flags alone; OUT, PUTS, PUTSP and HALT modify
no register at all. -/
theorem trap_preserves_pc_cond (m : Machine) (instr : Nat)
    (h : 0x20 ≤ instr &&& 0xff ∧ instr &&& 0xff ≤ 0x25) :
    (Trap m instr).pc = m.pc ∧
    (Trap m instr).cond = m.cond ∧
    (instr &&& 0xff = 0x20 →
      (Trap m instr).reg 0 = m.key ∧
      ∀ i, i ≠ 0 → (Trap m instr).reg i = m.reg i) ∧
    (instr &&& 0xff = 0x23 →
      (Trap m instr).reg 0 = charCast16 m.key ∧
      ∀ i, i ≠ 0 → (Trap m instr).reg i = m.reg i) ∧
    ((instr &&& 0xff = 0x21 ∨ instr &&& 0xff = 0x22 ∨
      instr &&& 0xff = 0x24 ∨ instr &&& 0xff = 0x25) →
      (Trap m instr).reg = m.reg) := by
  have hv : instr &&& 0xff = 0x20 ∨ instr &&& 0xff = 0x21 ∨
      instr &&& 0xff = 0x22 ∨ instr &&& 0xff = 0x23 ∨
      instr &&& 0xff = 0x24 ∨ instr &&& 0xff = 0x25 := by omega
  rcases hv with h' | h' | h' | h' | h' | h' <;>
    refine ⟨?_, ?_, ?_, ?_, ?_⟩ <;>
      simp_all [Trap, GetKey, upd]

/-- A machine with the wide key 0x100 pending, for the C10 counterexample:
0x100 survives neither signed nor unsigned truncation through `char`. -/
def exWideKeyM : Machine :=
  { state := State.Running, reg := fun _ => 0, pc := 0x3000, cond := 0,
    mem := fun _ => 0, key := 0x100, out := [] }

/-- Claim C10, counterexample to the claim as stated: the IN trap narrows
the key through `char c`, so the consumed key 0x100 reaches register 0 as
0, not as the key that was consumed. -/
theorem in_trap_narrows_key :
    ¬ (Trap exWideKeyM 0xF023).reg 0 = exWideKeyM.key := by
  decide

/-- Claim C10, witness for the amended theorem, with the OUT vector. -/
theorem trap_preserves_pc_cond_witness :
    (Trap exKeyM 0xF021).pc = exKeyM.pc ∧
    (Trap exKeyM 0xF021).cond = exKeyM.cond ∧
    (Trap exKeyM 0xF021).reg = exKeyM.reg :=
  ⟨(trap_preserves_pc_cond exKeyM 0xF021 (by decide)).1,
   (trap_preserves_pc_cond exKeyM 0xF021 (by decide)).2.1,
   (trap_preserves_pc_cond exKeyM 0xF021 (by decide)).2.2.2.2 (by decide)⟩

-- Claim C6: lemmas about the store loop of the loader.

theorem storeWords_below (ws : List Nat) :
    ∀ mem a x, x < a → storeWords mem a ws x = mem x := by
  induction ws with
  | nil => intro mem a x h; rfl
  | cons w ws ih =>
    intro mem a x h
    rw [storeWords, ih _ _ _ (by omega)]
    exact upd_other mem a (Swap16 w) x (by omega)

theorem storeWords_above (ws : List Nat) :
    ∀ mem a x, a + ws.length ≤ x → storeWords mem a ws x = mem x := by
  induction ws with
  | nil => intro mem a x h; rfl
  | cons w ws ih =>
    intro mem a x h
    rw [storeWords, ih _ _ _ (by simp at h ⊢; omega)]
    exact upd_other mem a (Swap16 w) x (by simp at h; omega)

theorem storeWords_get (ws : List Nat) :
    ∀ mem a k, k < ws.length →
      storeWords mem a ws (a + k) = Swap16 (ws.getD k 0) := by
  induction ws with
  | nil => intro mem a k h; simp at h
  | cons w ws ih =>
    intro mem a k h
    rw [storeWords]
    cases k with
    | zero =>
      rw [storeWords_below ws _ _ _ (by omega)]
      simp [upd]
    | succ k' =>
      have harr : a + (k' + 1) = (a + 1) + k' := by omega
      rw [harr, ih _ _ _ (by simp at h; omega)]
      rfl

theorem getD_take (l : List Nat) :
    ∀ n k, k < n → (l.take n).getD k 0 = l.getD k 0 := by
  induction l with
  | nil => intro n k h; simp
  | cons x xs ih =>
    intro n k h
    cases n with
    | zero => omega
    | succ n' =>
      cases k with
      | zero => simp
      | succ k' => simpa using ih n' k' (by omega)

-- Claim C6.

/-- Claim C6 (amended): the loader stores at most 65535 − origin stream
words - one word short of the 65536-word memory, so the top address 0xFFFF
is never written - at consecutive addresses from the origin, each converted
from big-endian, and reading memory at origin + k for any k below
min(N, 65535 − origin) returns exactly the k-th stream word. -/
theorem readImage_roundtrip (m : Machine) (rawOrigin : Nat)
    (rawWords : List Nat) (k : Nat)
    (hk : k < min rawWords.length (65535 - Swap16 rawOrigin)) :
    (ReadImage m rawOrigin rawWords).mem (Swap16 rawOrigin + k)
        = Swap16 (rawWords.getD k 0) ∧
    (ReadImage m rawOrigin rawWords).mem 0xFFFF = m.mem 0xFFFF := by
  have horig : Swap16 rawOrigin < 65536 :=
    Nat.mod_lt _ (by omega)
  have hlen : (rawWords.take (65535 - Swap16 rawOrigin)).length
      = min rawWords.length (65535 - Swap16 rawOrigin) := by
    simp [List.length_take, Nat.min_comm]
  constructor
  · simp only [ReadImage]
    rw [storeWords_get _ _ _ _ (by rw [hlen]; exact hk)]
    rw [getD_take rawWords _ _ (by omega)]
  · simp only [ReadImage]
    apply storeWords_above
    rw [hlen]
    omega

/-- A zeroed machine for the C6 example inputs. -/
def exLoadM : Machine :=
  { state := State.Running, reg := fun _ => 0, pc := 0x3000, cond := 0,
    mem := fun _ => 0, key := 0, out := [] }

/-- Claim C6, counterexample to the claim as stated: with origin 0xFFFF the
claimed capacity 65536 − origin is one word, but the loader stores nothing
(UINT16_MAX − origin = 0 words), so reading back the single stream word
0x0007 (raw bytes 0x0700) finds the untouched 0 instead. -/
theorem load_at_top_loses_word :
    ¬ (ReadImage exLoadM 0xFFFF [0x0700]).mem (0xFFFF + 0)
        = Swap16 0x0700 := by
  decide

/-- Claim C6, witness: a one-word image at origin 0x3000 reads back. -/
theorem readImage_roundtrip_witness :
    (ReadImage exLoadM 0x0030 [0x3412]).mem (Swap16 0x0030 + 0)
        = Swap16 ([0x3412].getD 0 0) ∧
    (ReadImage exLoadM 0x0030 [0x3412]).mem 0xFFFF = exLoadM.mem 0xFFFF :=
  readImage_roundtrip exLoadM 0x0030 [0x3412] 0 (by decide)

-- Claim C9: the blocking wrapper around an input trap, over two turns.

/-- A turn that starts Running and immediately executes a GETC or IN trap
instruction ends with the machine trapped on the whole instruction word,
the PC past it, everything else untouched, and the blocked-on-input flag
ORed in. -/
theorem turn_running_traps_input (w : VmState)
    (hrun : w.lc3.state = State.Running)
    (hpc : w.lc3.pc ≠ MR_KBSR)
    (hop : w.lc3.mem w.lc3.pc >>> 12 = 15)
    (hvec : w.lc3.mem w.lc3.pc &&& 0xff = 0x20 ∨
            w.lc3.mem w.lc3.pc &&& 0xff = 0x23) :
    VmState.Turn w =
      (⟨{ w.lc3 with
            pc := (w.lc3.pc + 1) % 65536,
            state := State.Trapped (w.lc3.mem w.lc3.pc) },
        w.blocked ||| isBlockedOnInput⟩, true) := by
  have hm2 := Run_trap 1000 w.lc3 hrun (by omega) hpc hop
  unfold VmState.Turn
  rw [hrun]
  simp only [hm2]
  rcases hvec with h | h <;> simp [h, hrun]

/-- A turn that starts trapped on GETC, or on IN with a key below 0x80,
and unblocked, executes the trap and leaves the consumed key in register 0
(the word after the trap instruction is again a trap, so the rest of the
budget of the turn does not disturb the register). -/
theorem turn_trapped_input_executes (w : VmState) (instr : Nat)
    (hst : w.lc3.state = State.Trapped instr)
    (hbl : w.blocked = 0)
    (hpc1 : w.lc3.pc ≠ MR_KBSR)
    (hop1 : w.lc3.mem w.lc3.pc >>> 12 = 15)
    (hvec : instr &&& 0xff = 0x20 ∨
            (instr &&& 0xff = 0x23 ∧ w.lc3.key < 0x80)) :
    (VmState.Turn w).1.lc3.reg 0 = w.lc3.key := by
  have hstate3 : (Trap w.lc3 instr).state = State.Running := by
    rcases hvec with h | ⟨h, hk⟩ <;> simp [Trap, GetKey, h]
  have hpc3 : (Trap w.lc3 instr).pc = w.lc3.pc := by
    rcases hvec with h | ⟨h, hk⟩ <;> simp [Trap, GetKey, h]
  have hmem3 : (Trap w.lc3 instr).mem = w.lc3.mem := by
    rcases hvec with h | ⟨h, hk⟩ <;> simp [Trap, GetKey, h]
  have hreg30 : (Trap w.lc3 instr).reg 0 = w.lc3.key := by
    rcases hvec with h | ⟨h, hk⟩
    · simp [Trap, GetKey, h, upd]
    · have hmod : w.lc3.key % 256 = w.lc3.key := Nat.mod_eq_of_lt (by omega)
      simp [Trap, GetKey, h, upd, charCast16, hmod, hk]
  have hRun : Run 1000 (Trap w.lc3 instr)
      = { Trap w.lc3 instr with
            pc := ((Trap w.lc3 instr).pc + 1) % 65536,
            state := State.Trapped
              ((Trap w.lc3 instr).mem (Trap w.lc3 instr).pc) } :=
    Run_trap 1000 _ hstate3 (by omega) (by rw [hpc3]; exact hpc1)
      (by rw [hmem3, hpc3]; exact hop1)
  unfold VmState.Turn
  rw [hst]
  simp only [hbl]
  simp [hstate3, hRun, hreg30]

/-- Claim C9 (amended): a wrapper turn that runs a program issuing a GETC
or IN trap while no key is pending sets blocked-on-input and leaves the
general registers unmodified; once a key k ≠ 0 is delivered to the
pending-key slot and blocked-on-input is cleared, the next turn executes
the trap and writes the key into register 0 - in full for GETC, while IN
narrows the key through an 8-bit char, so it delivers k itself only for
k < 0x80.  (The next program word after the trap is again a trap and the PC
stays off the keyboard status register, so the scenario is closed.) -/
theorem getc_block_and_resume (w : VmState) (k : Nat)
    (hrun : w.lc3.state = State.Running)
    (hkey : w.lc3.key = 0)
    (hbl : w.blocked = 0)
    (hpc : w.lc3.pc ≠ MR_KBSR)
    (hop : w.lc3.mem w.lc3.pc >>> 12 = 15)
    (hvec : w.lc3.mem w.lc3.pc &&& 0xff = 0x20 ∨
            (w.lc3.mem w.lc3.pc &&& 0xff = 0x23 ∧ k < 0x80))
    (hk : k ≠ 0)
    (hpc1 : (w.lc3.pc + 1) % 65536 ≠ MR_KBSR)
    (hop1 : w.lc3.mem ((w.lc3.pc + 1) % 65536) >>> 12 = 15) :
    (VmState.Turn w).1.blocked = isBlockedOnInput ∧
    (VmState.Turn w).1.lc3.reg = w.lc3.reg ∧
    (VmState.Turn (((VmState.Turn w).1.DeliverKey k).ClearBlocked
        isBlockedOnInput)).1.lc3.reg 0 = k := by
  have hvec' : w.lc3.mem w.lc3.pc &&& 0xff = 0x20 ∨
      w.lc3.mem w.lc3.pc &&& 0xff = 0x23 := hvec.imp id And.left
  have ht1 := turn_running_traps_input w hrun hpc hop hvec'
  refine ⟨?_, ?_, ?_⟩
  · rw [ht1, hbl]
    show (0 ||| isBlockedOnInput) = isBlockedOnInput
    decide
  · rw [ht1]
  · rw [ht1]
    apply turn_trapped_input_executes
    · rfl
    · show (w.blocked ||| isBlockedOnInput) &&&
        (0xFFFFFFFF ^^^ isBlockedOnInput % 0x100000000) = 0
      rw [hbl]; decide
    · exact hpc1
    · exact hop1
    · exact hvec

/-- A wrapper about to run `TRAP 0x20 ; TRAP 0x25` with no pending key. -/
def exGetcW : VmState :=
  ⟨{ state := State.Running, reg := fun _ => 0, pc := 0x3000, cond := 0,
     mem := fun a => if a = 0x3000 then 0xF020
                     else if a = 0x3001 then 0xF025 else 0,
     key := 0, out := [] }, 0⟩

/-- Claim C9, witness: the GETC program blocks, and the delivered key 65
lands in register 0 on the next turn. -/
theorem getc_block_and_resume_witness :
    (VmState.Turn exGetcW).1.blocked = isBlockedOnInput ∧
    (VmState.Turn exGetcW).1.lc3.reg = exGetcW.lc3.reg ∧
    (VmState.Turn (((VmState.Turn exGetcW).1.DeliverKey 65).ClearBlocked
        isBlockedOnInput)).1.lc3.reg 0 = 65 :=
  getc_block_and_resume exGetcW 65 rfl rfl rfl (by decide) (by decide)
    (Or.inl (by decide)) (by decide) (by decide) (by decide)

/-- A wrapper about to run `TRAP 0x23 ; TRAP 0x25` with no pending key. -/
def exInW : VmState :=
  ⟨{ state := State.Running, reg := fun _ => 0, pc := 0x3000, cond := 0,
     mem := fun a => if a = 0x3000 then 0xF023
                     else if a = 0x3001 then 0xF025 else 0,
     key := 0, out := [] }, 0⟩

/-- Claim C9, counterexample to the claim as stated: for the IN trap the
delivered key 0x100 does not reach register 0 - the handler narrows it
through `char`, so register 0 receives 0 instead of k. -/
theorem in_resume_drops_wide_key :
    ¬ (VmState.Turn (((VmState.Turn exInW).1.DeliverKey 0x100).ClearBlocked
        isBlockedOnInput)).1.lc3.reg 0 = 0x100 := by
  decide

end LC3
